import Mathlib

/-!
Shallow embedding of the egui_svgicon crate (src/lib.rs) for verification.

Conventions of the embedding:
* f32/f64 arithmetic is modelled exactly over ℚ.
* External collaborators (the usvg document parser, the lyon fill/stroke
  tessellators, egui's allocation/painting) are parameters of the embedded
  functions; their minimal data behaviour (Vec2/Rect arithmetic, Mesh
  translation, color construction) is modelled from their documented
  semantics.
* Rust panics (every `.unwrap()` in the source) are modelled by `Option`:
  a `none` result means the original code panics at that point.
* The recursion of `tessellate_recursive` over the document tree is driven
  by an explicit fuel argument; the theorems hold for every sufficient fuel.
-/

namespace EguiSvgicon

/-- 2D vector over exact rationals; models `egui::Vec2` and lyon points. -/
structure V2 where
  x : ℚ
  y : ℚ
  deriving DecidableEq, Repr

/-- Componentwise addition (egui `Vec2 + Vec2`). -/
def vadd (a b : V2) : V2 := ⟨a.x + b.x, a.y + b.y⟩

/-- Componentwise subtraction (egui `Vec2 - Vec2`). -/
def vsub (a b : V2) : V2 := ⟨a.x - b.x, a.y - b.y⟩

/-- Componentwise division (egui `Vec2 / Vec2`, used for `size / svg_rect.size()`). -/
def vdiv (a b : V2) : V2 := ⟨a.x / b.x, a.y / b.y⟩

/-- Scalar multiplication (egui `Vec2 * f32`). -/
def vsmul (a : V2) (k : ℚ) : V2 := ⟨a.x * k, a.y * k⟩

/-- egui `Vec2::max_elem`: the larger component. -/
def vmaxElem (a : V2) : ℚ := max a.x a.y

/-- Axis-aligned rectangle; models `egui::Rect` (and the converted `usvg::Rect`). -/
structure Rect where
  min : V2
  max : V2
  deriving DecidableEq, Repr

/-- egui `Rect::width`. -/
def Rect.width (r : Rect) : ℚ := r.max.x - r.min.x

/-- egui `Rect::height`. -/
def Rect.height (r : Rect) : ℚ := r.max.y - r.min.y

/-- egui `Rect::size`. -/
def Rect.size (r : Rect) : V2 := ⟨r.width, r.height⟩

/-- egui `Rect::aspect_ratio`, width / height. -/
def Rect.aspect (r : Rect) : ℚ := r.width / r.height

/-- egui `Rect::from_min_size`. -/
def rectFromMinSize (p s : V2) : Rect := ⟨p, vadd p s⟩

/-- egui `Margin` (fields in egui's order: left, right, top, bottom). -/
structure Margin where
  left : ℚ
  right : ℚ
  top : ℚ
  bottom : ℚ
  deriving DecidableEq, Repr

/-- The margin-inset frame computed by the `FitMode::Contain` branch of
`show_sized` (lines 195-196): `min += margin.left_top(); max -= margin.right_bottom()`. -/
def insetRect (frame : Rect) (m : Margin) : Rect :=
  ⟨vadd frame.min ⟨m.left, m.top⟩, vsub frame.max ⟨m.right, m.bottom⟩⟩

/-- A raw path command of `usvg::PathSegment` (coordinates are f64, modelled in ℚ). -/
inductive PathSegment where
  | moveTo (x y : ℚ)
  | lineTo (x y : ℚ)
  | curveTo (x1 y1 x2 y2 x y : ℚ)
  | closePath
  deriving DecidableEq, Repr

/-- A lyon `PathEvent` as produced by `PathConvIter`.  `fin` stands for
lyon's `PathEvent::End { last, first, close }` (`end` is a Lean keyword). -/
inductive PathEvent where
  | begin (p : V2)
  | line (src dst : V2)
  | cubic (src c1 c2 dst : V2)
  | fin (last first : V2) (close : Bool)
  deriving DecidableEq, Repr

/-- True exactly on `PathEvent::Begin` events. -/
def PathEvent.isBegin : PathEvent → Bool
  | .begin _ => true
  | _ => false

/-- The state of `PathConvIter` (lib.rs lines 382-388); the remaining
`usvg::PathSegmentsIter` is modelled by the list `rest`. -/
structure PathConvIter where
  rest : List PathSegment
  prev : V2
  first : V2
  needs_end : Bool
  deferred : Option PathEvent
  deriving DecidableEq, Repr

/-- One call of `PathConvIter::next` (lib.rs lines 391-468), returning the
produced event (if any) and the successor state.  Each branch is a direct
transcription of the corresponding Rust match arm. -/
def pciNext (s : PathConvIter) : Option PathEvent × PathConvIter :=
  match s.deferred with
  | some e => (some e, { s with deferred := none })
  | none =>
    match s.rest with
    | PathSegment.moveTo x y :: rest =>
      if s.needs_end then
        (some (PathEvent.fin s.prev s.first false),
         { rest := rest, prev := ⟨x, y⟩, first := ⟨x, y⟩, needs_end := false,
           deferred := some (PathEvent.begin ⟨x, y⟩) })
      else
        (some (PathEvent.begin ⟨x, y⟩),
         { s with rest := rest, first := ⟨x, y⟩, needs_end := true })
    | PathSegment.lineTo x y :: rest =>
      (some (PathEvent.line s.prev ⟨x, y⟩),
       { s with rest := rest, prev := ⟨x, y⟩, needs_end := true })
    | PathSegment.curveTo x1 y1 x2 y2 x y :: rest =>
      (some (PathEvent.cubic s.prev ⟨x1, y1⟩ ⟨x2, y2⟩ ⟨x, y⟩),
       { s with rest := rest, prev := ⟨x, y⟩, needs_end := true })
    | PathSegment.closePath :: rest =>
      (some (PathEvent.fin s.first s.first true),
       { s with rest := rest, prev := s.first, needs_end := false })
    | [] =>
      if s.needs_end then
        (some (PathEvent.fin s.prev s.first false), { s with needs_end := false })
      else
        (none, s)

/-- Upper bound on the number of `next` calls that can still produce an
event: two per pending command plus one for a pending deferred event plus
one for the pending trailing `End`. -/
def pciMeasure (s : PathConvIter) : ℕ :=
  2 * s.rest.length + (if s.needs_end then 1 else 0) + (if s.deferred.isSome then 1 else 0)

/-- Collect the events of the iterator, calling `pciNext` at most `fuel`
times (the iterator is exhausted after `pciMeasure` calls, see
`pciRun_stable`). -/
def pciRun : ℕ → PathConvIter → List PathEvent
  | 0, _ => []
  | fuel + 1, s =>
    match pciNext s with
    | (none, _) => []
    | (some e, s2) => e :: pciRun fuel s2

/-- All events produced by the iterator from state `s`. -/
def pciEvents (s : PathConvIter) : List PathEvent := pciRun (pciMeasure s) s

/-- `Convert<PathConvIter> for usvg::Path` (lib.rs lines 492-502): the
initial iterator state for a command stream. -/
def pathConvert (segs : List PathSegment) : PathConvIter :=
  { rest := segs, prev := ⟨0, 0⟩, first := ⟨0, 0⟩, needs_end := false, deferred := none }

/-- The command stream of the spec's Path Event Adapter example. -/
def c1Stream : List PathSegment :=
  [PathSegment.moveTo 0 0, PathSegment.lineTo 1 1, PathSegment.closePath,
   PathSegment.moveTo 2 2, PathSegment.lineTo 3 3]

/-- egui `Color32`: four channel values.  The external constructor
`Color32::from_rgba_unmultiplied` is modelled as recording its four
channel arguments (see `colorFromRgbaUnmultiplied`). -/
structure Color32 where
  r : ℕ
  g : ℕ
  b : ℕ
  a : ℕ
  deriving DecidableEq, Repr

/-- `usvg::Color` (rgb, u8 channels). -/
structure UColor where
  red : ℕ
  green : ℕ
  blue : ℕ
  deriving DecidableEq, Repr

/-- `usvg::Color::black()`. -/
def ucolorBlack : UColor := ⟨0, 0, 0⟩

/-- `usvg::Paint`: a solid color, or anything else (gradients/patterns),
which `new_egui_vertex` maps to black. -/
inductive Paint where
  | color (c : UColor)
  | other
  deriving DecidableEq, Repr

/-- The parts of `usvg::Fill` the code reads: paint and opacity. -/
structure Fill where
  paint : Paint
  opacity : ℚ
  deriving DecidableEq, Repr

/-- `usvg::LineCap` and lyon `LineCap` (isomorphic enums, one model type). -/
inductive LineCap where
  | butt
  | square
  | round
  deriving DecidableEq, Repr

/-- `usvg::LineJoin` and lyon `LineJoin`. -/
inductive LineJoin where
  | miter
  | bevel
  | round
  deriving DecidableEq, Repr

/-- The parts of `usvg::Stroke` the code reads. -/
structure Stroke where
  paint : Paint
  opacity : ℚ
  width : ℚ
  linecap : LineCap
  linejoin : LineJoin
  deriving DecidableEq, Repr

/-- lyon `StrokeOptions` as configured by the code: line width, cap, join
(from `Convert<StrokeOptions>`, lib.rs lines 474-490) and the tolerance
added by `.with_tolerance(tolerance)` at the call site (line 350). -/
structure StrokeOptions where
  line_width : ℚ
  line_cap : LineCap
  line_join : LineJoin
  tolerance : ℚ
  deriving DecidableEq, Repr

/-- `Convert<StrokeOptions> for usvg::Stroke` (lib.rs lines 474-490)
followed by `.with_tolerance(tol)`: maps width/cap/join one-to-one. -/
def strokeConvert (s : Stroke) (tol : ℚ) : StrokeOptions :=
  { line_width := s.width
    line_cap :=
      match s.linecap with
      | LineCap.butt => LineCap.butt
      | LineCap.square => LineCap.square
      | LineCap.round => LineCap.round
    line_join :=
      match s.linejoin with
      | LineJoin.miter => LineJoin.miter
      | LineJoin.bevel => LineJoin.bevel
      | LineJoin.round => LineJoin.round
    tolerance := tol }

/-- Rust `f64 as u8`: truncate toward zero, saturating into 0..=255. -/
def ratToU8 (q : ℚ) : ℕ := if q ≤ 0 then 0 else min q.floor.toNat 255

/-- Modelled boundary of egui's `Color32::from_rgba_unmultiplied`: the four
channel arguments are recorded. -/
def colorFromRgbaUnmultiplied (r g b a : ℕ) : Color32 := ⟨r, g, b, a⟩

/-- `Convert<Color32> for (usvg::Color, f64)` (lib.rs lines 503-508):
`Color32::from_rgba_unmultiplied(red, green, blue, (opacity * 255.0) as u8)`. -/
def colorConvert (c : UColor) (opacity : ℚ) : Color32 :=
  colorFromRgbaUnmultiplied c.red c.green c.blue (ratToU8 (opacity * 255))

/-- `usvg::Transform` (affine 2D matrix a b c d e f). -/
structure TF where
  a : ℚ
  b : ℚ
  c : ℚ
  d : ℚ
  e : ℚ
  f : ℚ
  deriving DecidableEq, Repr

/-- `usvg::Transform::default()`: the identity. -/
def TF.idT : TF := ⟨1, 0, 0, 1, 0, 0⟩

/-- `usvg::Transform::append` (svgtypes): `self = self * other`. -/
def TF.append (t o : TF) : TF :=
  ⟨t.a * o.a + t.c * o.b,
   t.b * o.a + t.d * o.b,
   t.a * o.c + t.c * o.d,
   t.b * o.c + t.d * o.d,
   t.a * o.e + t.c * o.f + t.e,
   t.b * o.e + t.d * o.f + t.f⟩

/-- `usvg::Transform::apply`: `(a*x + c*y + e, b*x + d*y + f)`. -/
def TF.apply (t : TF) (x y : ℚ) : ℚ × ℚ :=
  (t.a * x + t.c * y + t.e, t.b * x + t.d * y + t.f)

/-- The parts of `usvg::Path` the code reads: transform, fill, stroke, and
the command stream (`self.data.segments()`). -/
structure PathData where
  transform : TF
  fill : Option Fill
  stroke : Option Stroke
  data : List PathSegment

/-- A `usvg::Node`'s kind: path, group (with children), image, or text. -/
inductive Node where
  | path (p : PathData)
  | group (transform : TF) (children : List Node)
  | image
  | text

/-- A parsed `usvg::Tree`: the view box and the root node's children. -/
structure Tree where
  view_box : Rect
  root : List Node

/-- `FitMode` (lib.rs lines 17-24). -/
inductive FitMode where
  | none
  | size (s : V2)
  | factor (f : ℚ)
  | cover
  | contain (m : Margin)
  deriving DecidableEq, Repr

/-- The `Svg` icon descriptor (lib.rs lines 26-34); the color remap, a
boxed `Fn(&mut Color32)` in Rust, is modelled as an optional function. -/
structure Svg where
  tree : Tree
  key : ℕ
  color_func : Option (Color32 → Color32)
  tolerance : ℚ
  scale_tolerance : Bool
  fit_mode : FitMode

/-- `Svg::svg_rect` (lib.rs lines 263-265): the view-box rectangle.  The
`Convert<Rect> for usvg::Rect` step (lines 509-516) is the identity in
this model, where both rectangle types are `Rect`. -/
def svgRect (svg : Svg) : Rect := svg.tree.view_box

/-- `Svg::new` (lib.rs lines 76-130).  Parsing is done by the external
document-model provider; its result is the `parsed` argument, and the
`cached`-feature tree cache always yields a tree equal to the parse of the
same bytes, so both configurations produce the fields below.  The
`.unwrap()` on the parse result means a parse failure panics: that is
modelled by `none`. -/
def svgNew (parsed : Except Unit Tree) (key : ℕ) : Option Svg :=
  match parsed with
  | Except.error _ => none
  | Except.ok tree =>
    some { tree := tree, key := key, color_func := none, tolerance := 1,
           scale_tolerance := true, fit_mode := FitMode.contain ⟨0, 0, 0, 0⟩ }

/-- An `epaint::Vertex`: position, texture coordinate, color. -/
structure Vertex where
  pos : V2
  uv : V2
  color : Color32
  deriving DecidableEq, Repr

/-- An `egui::Mesh` (also used for the lyon `VertexBuffers`, whose vertex
and index vectors `tessellate` swaps into the mesh unchanged). -/
structure Mesh where
  vertices : List Vertex
  indices : List ℕ
  deriving DecidableEq, Repr

/-- The freshly created empty `VertexBuffers` of `tessellate` (line 270). -/
def emptyMesh : Mesh := ⟨[], []⟩

/-- Shift a vertex position by `d`, leaving uv and color unchanged. -/
def shiftV (d : V2) (v : Vertex) : Vertex := { v with pos := vadd v.pos d }

/-- egui `Mesh::translate`: add `d` to every vertex position. -/
def meshTranslate (m : Mesh) (d : V2) : Mesh :=
  { m with vertices := m.vertices.map (shiftV d) }

/-- Apply a color remap to every vertex color (lib.rs lines 251-255). -/
def mapColors (f : Color32 → Color32) (m : Mesh) : Mesh :=
  { m with vertices := m.vertices.map fun v => { v with color := f v.color } }

/-- lyon's `BuffersBuilder` appending one tessellation result to the shared
buffer: new vertices are built by `mk` and appended, new indices are offset
by the number of vertices already in the buffer. -/
def appendTess (buf : Mesh) (verts : List V2) (inds : List ℕ) (mk : V2 → Vertex) : Mesh :=
  { vertices := buf.vertices ++ verts.map mk
    indices := buf.indices ++ inds.map fun i => i + buf.vertices.length }

/-- The external lyon tessellators.  `fill` consumes the path's event
stream (produced by `PathConvIter`) and a tolerance; `stroke` additionally
takes the converted stroke options.  Each returns the produced local
vertex positions and (unoffset) triangle indices, or an error — lyon's
`TessellationError`, which the Rust code unwraps. -/
structure ExtTess where
  fill : List PathEvent → ℚ → Except Unit (List V2 × List ℕ)
  stroke : List PathEvent → StrokeOptions → Except Unit (List V2 × List ℕ)

/-- The effective tolerance of `tessellate_recursive` (lib.rs lines
330-334): the configured tolerance, divided by the larger scale component
when `scale_tolerance` is set. -/
def effectiveTol (svg : Svg) (scale : V2) : ℚ :=
  if svg.scale_tolerance then svg.tolerance / vmaxElem scale else svg.tolerance

/-- The `new_egui_vertex` closure of `tessellate_recursive` (lib.rs lines
299-329): map the local point through parent-then-path transform, subtract
the view-box origin, scale per axis, add the destination origin; resolve
the paint to a color (non-solid paints fall back to black), combine with
opacity, and apply the configured color remap. -/
def new_egui_vertex (svg : Svg) (scale : V2) (rect : Rect) (parent_transform : TF)
    (path_transform : TF) (point : V2) (paint : Paint) (opacity : ℚ) : Vertex :=
  { pos :=
      let t := TF.append parent_transform path_transform
      let xy := t.apply point.x point.y
      let p1 := vsub ⟨xy.1, xy.2⟩ (svgRect svg).min
      let p2 : V2 := ⟨p1.x * scale.x, p1.y * scale.y⟩
      vadd p2 rect.min
    uv := ⟨0, 0⟩
    color :=
      let c :=
        match paint with
        | Paint.color c0 => c0
        | Paint.other => ucolorBlack
      let c1 := colorConvert c opacity
      match svg.color_func with
      | some f => f c1
      | none => c1 }

/-- Processing of one `usvg::NodeKind::Path` by `tessellate_recursive`
(lib.rs lines 298-361): tessellate the fill (if any) and then the stroke
(if any) into the shared buffer; either tessellation error is unwrapped in
Rust, i.e. the whole computation panics (`none`). -/
def tessPath (ext : ExtTess) (svg : Svg) (scale : V2) (rect : Rect) (parent_transform : TF)
    (p : PathData) (buf : Mesh) : Option Mesh :=
  let tol := effectiveTol svg scale
  let events := pciEvents (pathConvert p.data)
  let afterFill : Option Mesh :=
    match p.fill with
    | none => some buf
    | some fl =>
      match ext.fill events tol with
      | Except.error _ => none
      | Except.ok (vs, inds) =>
        some (appendTess buf vs inds fun q =>
          new_egui_vertex svg scale rect parent_transform p.transform q fl.paint fl.opacity)
  match afterFill with
  | none => none
  | some b =>
    match p.stroke with
    | none => some b
    | some st =>
      match ext.stroke events (strokeConvert st tol) with
      | Except.error _ => none
      | Except.ok (vs, inds) =>
        some (appendTess b vs inds fun q =>
          new_egui_vertex svg scale rect parent_transform p.transform q st.paint st.opacity)

/-- `Svg::tessellate_recursive` (lib.rs lines 286-378): walk the node list
depth-first, tessellating paths into the shared buffer and composing the
inherited transform at groups; image and text nodes are skipped.  `fuel`
bounds the number of steps (the Rust recursion terminates because the tree
is finite; all theorems hold for every sufficient fuel). -/
def tessNodes (ext : ExtTess) (svg : Svg) (scale : V2) (rect : Rect) :
    ℕ → List Node → TF → Mesh → Option Mesh
  | 0, _, _, _ => none
  | _ + 1, [], _, buf => some buf
  | fuel + 1, Node.path p :: ns, t, buf =>
    match tessPath ext svg scale rect t p buf with
    | none => none
    | some b2 => tessNodes ext svg scale rect fuel ns t b2
  | fuel + 1, Node.group gt cs :: ns, t, buf =>
    match tessNodes ext svg scale rect fuel cs (TF.append t gt) buf with
    | none => none
    | some b2 => tessNodes ext svg scale rect fuel ns t b2
  | fuel + 1, Node.image :: ns, t, buf => tessNodes ext svg scale rect fuel ns t buf
  | fuel + 1, Node.text :: ns, t, buf => tessNodes ext svg scale rect fuel ns t buf

/-- `Svg::tessellate` (lib.rs lines 266-285): recurse from the root's
children with the default (identity) transform into a fresh buffer, then
move the buffers into a mesh. -/
def tessellate (ext : ExtTess) (fuel : ℕ) (svg : Svg) (rect : Rect) (scale : V2) :
    Option Mesh :=
  tessNodes ext svg scale rect fuel svg.tree.root TF.idT emptyMesh

/-- The size and inner frame computed by `show_sized` (lib.rs lines
176-213): the render size per fit mode, and the (margin-inset, for
`Contain`) inner frame rectangle. -/
def fitSizeAndInner (svg : Svg) (frame : Rect) : V2 × Rect :=
  match svg.fit_mode with
  | FitMode.none => (Rect.size (svgRect svg), frame)
  | FitMode.size s => (s, frame)
  | FitMode.factor f => (vsmul (Rect.size (svgRect svg)) f, frame)
  | FitMode.cover =>
    ((if Rect.aspect frame > Rect.aspect (svgRect svg) then
        ⟨Rect.width frame,
         Rect.height (svgRect svg) * Rect.width frame / Rect.width (svgRect svg)⟩
      else
        ⟨Rect.width (svgRect svg) * Rect.height frame / Rect.height (svgRect svg),
         Rect.height frame⟩ : V2),
     frame)
  | FitMode.contain m =>
    let inner := insetRect frame m
    ((if Rect.aspect inner > Rect.aspect (svgRect svg) then
        ⟨Rect.width (svgRect svg) * Rect.height inner / Rect.height (svgRect svg),
         Rect.height inner⟩
      else
        ⟨Rect.width inner,
         Rect.height (svgRect svg) * Rect.width inner / Rect.width (svgRect svg)⟩ : V2),
     inner)

/-- egui `Align2::CENTER_CENTER.align_size_within_rect`: a rectangle of
the given size centered in the frame. -/
def alignCenterSizeWithinRect (size : V2) (frame : Rect) : Rect :=
  rectFromMinSize ⟨frame.min.x + (Rect.width frame - size.x) / 2,
                   frame.min.y + (Rect.height frame - size.y) / 2⟩ size

/-- The `Tessellator::compute` of the mesh cache (lib.rs lines 236-243):
tessellate at a rectangle with origin `(0,0)` and the render size, with
per-axis scale `size / svg_rect().size()`. -/
def tessellatorCompute (ext : ExtTess) (fuel : ℕ) (svg : Svg) (size : V2) : Option Mesh :=
  tessellate ext fuel svg (rectFromMinSize ⟨0, 0⟩ size) (vdiv size (Rect.size (svgRect svg)))

/-- The cached branch of `Svg::show_sized` (lib.rs lines 170-257): compute
the render size and destination rectangle, obtain the mesh (the stored
cache entry on a hit, `Tessellator::compute` on a miss), translate it to
the destination, and apply the configured color remap to every vertex.
The frame rectangle returned by `ui.allocate_space` is a parameter. -/
def showSizedCached (ext : ExtTess) (fuel : ℕ) (svg : Svg) (frame : Rect)
    (stored : Option Mesh) : Option Mesh :=
  let si := fitSizeAndInner svg frame
  let rect := alignCenterSizeWithinRect si.1 si.2
  let mesh? :=
    match stored with
    | some m => some m
    | none => tessellatorCompute ext fuel svg si.1
  Option.map
    (fun mesh =>
      let mesh := meshTranslate mesh rect.min
      match svg.color_func with
      | some f => mapColors f mesh
      | none => mesh)
    mesh?

/-- The discriminant and bit-exact numeric payload hashed for a `FitMode`
(`impl Hash for Svg`, lib.rs lines 49-64). -/
def svgFitHash : FitMode → ℕ × List ℚ
  | FitMode.none => (0, [])
  | FitMode.size s => (1, [s.x, s.y])
  | FitMode.factor f => (2, [f])
  | FitMode.cover => (3, [])
  | FitMode.contain m => (4, [m.left, m.right, m.top, m.bottom])

/-- The data fed to the hasher for a `TessellateCacheKey` (lib.rs lines
36-66 and 224-232): the document key, bit-exact tolerance, the
scale-tolerance flag, the fit-mode discriminant and payload, and the
bit-exact render size.  `tree` and `color_func` are explicitly not hashed. -/
structure CacheKey where
  key : ℕ
  tolerance : ℚ
  scale_tolerance : Bool
  fit : ℕ × List ℚ
  size : V2
  deriving DecidableEq, Repr

/-- The cache key of `show_sized`'s mesh cache for a descriptor and size. -/
def cacheKey (svg : Svg) (size : V2) : CacheKey :=
  ⟨svg.key, svg.tolerance, svg.scale_tolerance, svgFitHash svg.fit_mode, size⟩

/-! Concrete instances used to evaluate the embedded code. -/

/-- The unit rectangle (0,0)-(1,1). -/
def rect01 : Rect := ⟨⟨0, 0⟩, ⟨1, 1⟩⟩

/-- An empty document tree with a unit view box. -/
def tree0 : Tree := ⟨rect01, []⟩

/-- The descriptor `Svg::new` builds for `tree0` (used as a witness value). -/
def svgDefault0 : Svg :=
  { tree := tree0, key := 0, color_func := none, tolerance := 1,
    scale_tolerance := true, fit_mode := FitMode.contain ⟨0, 0, 0, 0⟩ }

/-- An opaque black solid fill. -/
def fillBlack : Fill := ⟨Paint.color ⟨0, 0, 0⟩, 1⟩

/-- A filled path of one command; its event stream has length 2. -/
def pBad : PathData := ⟨TF.idT, some fillBlack, none, [PathSegment.moveTo 0 0]⟩

/-- A filled path of two commands; its event stream has length 3. -/
def pGood : PathData := ⟨TF.idT, some fillBlack, none, [PathSegment.moveTo 0 0, PathSegment.lineTo 1 0]⟩

/-- An external tessellator that fails exactly on `pBad`'s event stream
(two events) and produces one triangle otherwise. -/
def extC2 : ExtTess :=
  { fill := fun evs _ =>
      if evs.length = 2 then Except.error ()
      else Except.ok ([⟨0, 0⟩, ⟨1, 0⟩, ⟨0, 1⟩], [0, 1, 2])
    stroke := fun _ _ => Except.ok ([], []) }

/-- A document with two filled paths, the first of which fails to
triangulate under `extC2`. -/
def svgC2 : Svg :=
  { tree := ⟨rect01, [Node.path pBad, Node.path pGood]⟩, key := 0, color_func := none,
    tolerance := 1, scale_tolerance := false, fit_mode := FitMode.none }

/-- A non-idempotent color remap: add one to the red channel. -/
def remapInc : Color32 → Color32 := fun c => ⟨c.r + 1, c.g, c.b, c.a⟩

/-- An external tessellator that always succeeds with a single vertex. -/
def extOk1 : ExtTess :=
  { fill := fun _ _ => Except.ok ([⟨0, 0⟩], [0])
    stroke := fun _ _ => Except.ok ([], []) }

/-- A one-path document whose descriptor configures the remap `remapInc`. -/
def svgC4 : Svg :=
  { tree := ⟨rect01, [Node.path pBad]⟩, key := 0, color_func := some remapInc,
    tolerance := 1, scale_tolerance := false, fit_mode := FitMode.size ⟨1, 1⟩ }

/-- A 10 x 5 view box with `Contain` fit and unit margins. -/
def svgC6 : Svg :=
  { tree := ⟨⟨⟨0, 0⟩, ⟨10, 5⟩⟩, []⟩, key := 0, color_func := none, tolerance := 1,
    scale_tolerance := true, fit_mode := FitMode.contain ⟨1, 1, 1, 1⟩ }

/-- A 10 x 5 view box with `Cover` fit. -/
def svgC7 : Svg :=
  { tree := ⟨⟨⟨0, 0⟩, ⟨10, 5⟩⟩, []⟩, key := 0, color_func := none, tolerance := 1,
    scale_tolerance := true, fit_mode := FitMode.cover }

/-- An 8 x 8 frame rectangle. -/
def frame8 : Rect := ⟨⟨0, 0⟩, ⟨8, 8⟩⟩

/-- A one-path document with no color remap configured. -/
def svgC10 : Svg :=
  { tree := ⟨rect01, [Node.path pBad]⟩, key := 0, color_func := none,
    tolerance := 1, scale_tolerance := false, fit_mode := FitMode.none }

/-- A destination rectangle away from the origin. -/
def rectC10 : Rect := ⟨⟨1, 2⟩, ⟨3, 4⟩⟩

/-- An opaque black stroke of width 1 with butt caps and miter joins. -/
def strokeBlack : Stroke := ⟨Paint.color ⟨0, 0, 0⟩, 1, 1, LineCap.butt, LineJoin.miter⟩

/-- A stroked (fill-less) path of one command. -/
def pBadStroke : PathData := ⟨TF.idT, none, some strokeBlack, [PathSegment.moveTo 0 0]⟩

/-- An external tessellator whose stroke tessellation always fails. -/
def extC2s : ExtTess :=
  { fill := fun _ _ => Except.ok ([], [])
    stroke := fun _ _ => Except.error () }

/-- A document with a stroked path (whose stroke tessellation fails under
`extC2s`) followed by a second path. -/
def svgC2s : Svg :=
  { tree := ⟨rect01, [Node.path pBadStroke, Node.path pGood]⟩, key := 0, color_func := none,
    tolerance := 1, scale_tolerance := false, fit_mode := FitMode.none }

/-! Theorems. -/

/-- Every call of `pciNext` that produces an event strictly decreases
`pciMeasure`; together with `pciStep` this bounds the iterator's output. -/
theorem pciStep (s : PathConvIter) :
    (∃ e s2, pciNext s = (some e, s2) ∧ pciMeasure s2 < pciMeasure s) ∨
      (pciNext s).1 = none := by
  obtain ⟨rest, prev, first, ne, df⟩ := s
  cases df with
  | some e0 => exact Or.inl ⟨e0, _, rfl, by simp [pciMeasure]⟩
  | none =>
    cases rest with
    | nil =>
      cases ne with
      | false => exact Or.inr rfl
      | true => exact Or.inl ⟨_, _, rfl, by simp [pciMeasure]⟩
    | cons sg rest =>
      cases sg with
      | moveTo x y =>
        cases ne with
        | false => exact Or.inl ⟨_, _, rfl, by simp [pciMeasure] <;> omega⟩
        | true => exact Or.inl ⟨_, _, rfl, by simp [pciMeasure] <;> omega⟩
      | lineTo x y =>
        cases ne with
        | false => exact Or.inl ⟨_, _, rfl, by simp [pciMeasure] <;> omega⟩
        | true => exact Or.inl ⟨_, _, rfl, by simp [pciMeasure] <;> omega⟩
      | curveTo x1 y1 x2 y2 x y =>
        cases ne with
        | false => exact Or.inl ⟨_, _, rfl, by simp [pciMeasure] <;> omega⟩
        | true => exact Or.inl ⟨_, _, rfl, by simp [pciMeasure] <;> omega⟩
      | closePath =>
        cases ne with
        | false => exact Or.inl ⟨_, _, rfl, by simp [pciMeasure] <;> omega⟩
        | true => exact Or.inl ⟨_, _, rfl, by simp [pciMeasure] <;> omega⟩

/-- Any two fuels at least `pciMeasure s` make `pciRun` produce the same
event list: the iterator has converged after `pciMeasure s` calls. -/
theorem pciRun_stable : ∀ (f1 f2 : ℕ) (s : PathConvIter),
    pciMeasure s ≤ f1 → pciMeasure s ≤ f2 → pciRun f1 s = pciRun f2 s := by
  intro f1
  induction f1 with
  | zero =>
    intro f2 s h1 h2
    rcases pciStep s with ⟨e, s2, hn, hlt⟩ | hn
    · exact absurd hlt (by omega)
    · rcases hne : pciNext s with ⟨o, s3⟩
      rw [hne] at hn
      have ho : o = none := hn
      subst ho
      cases f2 with
      | zero => rfl
      | succ f2 => simp [pciRun, hne]
  | succ f1 ih =>
    intro f2 s h1 h2
    rcases pciStep s with ⟨e, s2, hn, hlt⟩ | hn
    · cases f2 with
      | zero => exact absurd hlt (by omega)
      | succ f2 =>
        simp only [pciRun, hn]
        exact congrArg (e :: ·) (ih f2 s2 (by omega) (by omega))
    · rcases hne : pciNext s with ⟨o, s3⟩
      rw [hne] at hn
      have ho : o = none := hn
      subst ho
      cases f2 with
      | zero => simp [pciRun, hne]
      | succ f2 => simp [pciRun, hne]

/-- The initial iterator state of a stream of `n` commands has measure `2n`. -/
theorem pciMeasure_convert (segs : List PathSegment) :
    pciMeasure (pathConvert segs) = 2 * segs.length := by
  simp [pciMeasure, pathConvert]

/-- C1 (counterexample): on the command stream `MoveTo(0,0), LineTo(1,1),
Close, MoveTo(2,2), LineTo(3,3)`, the fifth event produced by the Path
Event Adapter is `Line((0,0)→(3,3))`, not the `Line((2,2)→(3,3))` the
claim states: the move-to that opens the second subpath does not update
the current point. -/
theorem C1_counterexample :
    (pciEvents (pathConvert c1Stream))[4]? = some (PathEvent.line ⟨0, 0⟩ ⟨3, 3⟩) ∧
    (pciEvents (pathConvert c1Stream))[4]? ≠ some (PathEvent.line ⟨2, 2⟩ ⟨3, 3⟩) := by
  decide

/-- C1 (amended): the adapter produces exactly `Begin(0,0); Line((0,0)→(1,1));
End{close:true}; Begin(2,2); Line((0,0)→(3,3)); End{close:false}` — the
trailing `End` at end of stream, and the second `Line` starting from the
stale current point `(0,0)` because `MoveTo` into a fresh subpath leaves
`prev` unchanged. -/
theorem C1_events_trace :
    pciEvents (pathConvert c1Stream) =
      [PathEvent.begin ⟨0, 0⟩, PathEvent.line ⟨0, 0⟩ ⟨1, 1⟩,
       PathEvent.fin ⟨0, 0⟩ ⟨0, 0⟩ true, PathEvent.begin ⟨2, 2⟩,
       PathEvent.line ⟨0, 0⟩ ⟨3, 3⟩, PathEvent.fin ⟨3, 3⟩ ⟨2, 2⟩ false] := by
  decide

/-- C5 (counterexample): a malformed stream consisting of a single
`LineTo(1,1)` does not degrade to "no subpath": the adapter emits a line
edge event and an end event, none of which is a `Begin`, so edge events
appear outside any Begin/End bracket. -/
theorem C5_counterexample :
    pciEvents (pathConvert [PathSegment.lineTo 1 1]) =
      [PathEvent.line ⟨0, 0⟩ ⟨1, 1⟩, PathEvent.fin ⟨1, 1⟩ ⟨0, 0⟩ false] ∧
    (pciEvents (pathConvert [PathSegment.lineTo 1 1])).all
        (fun e => !e.isBegin) = true := by
  decide

/-- C5 (amended): the adapter's `next` is total — a stream of `n` commands
is exhausted within `2n` calls, so any fuel of at least `2n` yields the
same (complete) event list — and the empty stream yields no events.  A
malformed stream that does not begin with a move-to still never panics,
but it may emit edge and end events without a preceding `Begin` (from the
default current point `(0,0)`), as `C5_counterexample` shows. -/
theorem C5_total_empty (segs : List PathSegment) (fuel : ℕ)
    (h : 2 * segs.length ≤ fuel) :
    pciRun fuel (pathConvert segs) = pciEvents (pathConvert segs) ∧
    pciEvents (pathConvert []) = [] := by
  constructor
  · exact pciRun_stable fuel (pciMeasure (pathConvert segs)) (pathConvert segs)
      (by rw [pciMeasure_convert]; exact h) le_rfl
  · rfl

/-- C5 witness: the amended totality statement evaluated on the concrete
one-command stream `MoveTo(1,2)` with fuel 5. -/
theorem C5_total_empty_witness :
    2 * ([PathSegment.moveTo 1 2] : List PathSegment).length ≤ 5 ∧
    (pciRun 5 (pathConvert [PathSegment.moveTo 1 2]) =
        pciEvents (pathConvert [PathSegment.moveTo 1 2]) ∧
      pciEvents (pathConvert []) = []) :=
  ⟨by decide, C5_total_empty [PathSegment.moveTo 1 2] 5 (by decide)⟩

/-- C9: a freshly constructed icon descriptor has tessellation tolerance 1,
scale-tolerance enabled, fit policy `Contain` with zero margin on all four
sides, and no color remap configured. -/
theorem C9_defaults (t : Tree) (key : ℕ) (s : Svg)
    (h : svgNew (Except.ok t) key = some s) :
    s.tolerance = 1 ∧ s.scale_tolerance = true ∧
      s.fit_mode = FitMode.contain ⟨0, 0, 0, 0⟩ ∧ s.color_func = none := by
  simp only [svgNew, Option.some.injEq] at h
  subst h
  exact ⟨rfl, rfl, rfl, rfl⟩

/-- C9 witness: the defaults evaluated on a concrete parsed tree. -/
theorem C9_defaults_witness :
    svgNew (Except.ok tree0) 0 = some svgDefault0 ∧
    (svgDefault0.tolerance = 1 ∧ svgDefault0.scale_tolerance = true ∧
      svgDefault0.fit_mode = FitMode.contain ⟨0, 0, 0, 0⟩ ∧
      svgDefault0.color_func = none) :=
  ⟨rfl, C9_defaults tree0 0 svgDefault0 rfl⟩

/-- C3 (counterexample): when the external document-model provider reports
a parse failure, `Svg::new` unwraps the result and panics (modelled by
`none`): no recoverable error value is returned to the caller. -/
theorem C3_counterexample : svgNew (Except.error ()) 0 = none := rfl

/-- C3 (amended): for every parse failure, `Svg::new` panics on the
`.unwrap()` of the parse result (modelled by `none`); the failure is
propagated as a crash, not returned as a recoverable error. -/
theorem C3_parse_panic (e : Unit) (key : ℕ) : svgNew (Except.error e) key = none := rfl

/-- C2 (counterexample): in a document of two filled paths whose first
path fails to triangulate, the whole mesh build panics on the `.unwrap()`
(modelled by `none`); in particular the second path's triangles are not
produced. -/
theorem C2_counterexample :
    tessellate extC2 9 svgC2 rect01 ⟨1, 1⟩ = none := by decide

/-- C2 (amended): if triangulating a single path's fill or stroke fails,
the mesh build aborts immediately (the corresponding tessellation `Result`
is unwrapped, i.e. the code panics): no mesh is produced and the remaining
paths of the tree are not tessellated. -/
theorem C2_abort_on_failure (ext : ExtTess) (svg : Svg) (scale : V2) (rect : Rect)
    (fuel : ℕ) (t : TF) (p : PathData) (rest : List Node) (buf : Mesh)
    (h : (∃ fl, p.fill = some fl ∧
            ext.fill (pciEvents (pathConvert p.data)) (effectiveTol svg scale) =
              Except.error ()) ∨
         (∃ st, p.stroke = some st ∧
            ext.stroke (pciEvents (pathConvert p.data))
              (strokeConvert st (effectiveTol svg scale)) = Except.error ())) :
    tessNodes ext svg scale rect (fuel + 1) (Node.path p :: rest) t buf = none := by
  have hp : tessPath ext svg scale rect t p buf = none := by
    rcases h with ⟨fl, hfill, herr⟩ | ⟨st, hstroke, herr⟩
    · simp [tessPath, hfill, herr]
    · cases hf : p.fill with
      | none => simp [tessPath, hf, hstroke, herr]
      | some fl =>
        cases hef : ext.fill (pciEvents (pathConvert p.data)) (effectiveTol svg scale) with
        | error u => simp [tessPath, hf, hef]
        | ok vi =>
          obtain ⟨vs, inds⟩ := vi
          simp [tessPath, hf, hef, hstroke, herr]
  simp [tessNodes, hp]

/-- C2 witness: the abort evaluated on two concrete two-path documents —
one whose first path's fill tessellation fails, one whose first path's
stroke tessellation fails; in both, the second path is never reached. -/
theorem C2_abort_witness :
    (pBad.fill = some fillBlack ∧
      extC2.fill (pciEvents (pathConvert pBad.data)) (effectiveTol svgC2 ⟨1, 1⟩) =
        Except.error ()) ∧
    tessNodes extC2 svgC2 ⟨1, 1⟩ rect01 9 [Node.path pBad, Node.path pGood] TF.idT
      emptyMesh = none ∧
    (pBadStroke.stroke = some strokeBlack ∧
      extC2s.stroke (pciEvents (pathConvert pBadStroke.data))
        (strokeConvert strokeBlack (effectiveTol svgC2s ⟨1, 1⟩)) = Except.error ()) ∧
    tessNodes extC2s svgC2s ⟨1, 1⟩ rect01 9 [Node.path pBadStroke, Node.path pGood]
      TF.idT emptyMesh = none :=
  ⟨⟨rfl, rfl⟩,
    C2_abort_on_failure extC2 svgC2 ⟨1, 1⟩ rect01 8 TF.idT pBad [Node.path pGood]
      emptyMesh (Or.inl ⟨fillBlack, rfl, rfl⟩),
    ⟨rfl, rfl⟩,
    C2_abort_on_failure extC2s svgC2s ⟨1, 1⟩ rect01 8 TF.idT pBadStroke [Node.path pGood]
      emptyMesh (Or.inr ⟨strokeBlack, rfl, rfl⟩)⟩

/-- C4: the tessellation cache key is indeed independent of the configured
color-remap function (first conjunct), but the returned colors are not the
remap applied once: because `tessellate` already applies the remap while
computing the cache entry and `show_sized` applies it again after
retrieval, a cache miss yields `f (f c)` on each vertex — here red = 2 —
while the remap applied exactly once to the paint-resolved source color
gives red = 1 (third conjunct shows the two differ). -/
theorem C4_remap_twice :
    (∀ (svg : Svg) (f : Option (Color32 → Color32)) (size : V2),
        cacheKey { svg with color_func := f } size = cacheKey svg size) ∧
    Option.map (fun m => m.vertices.map Vertex.color)
        (showSizedCached extOk1 3 svgC4 rect01 none) = some [⟨2, 0, 0, 255⟩] ∧
    remapInc (remapInc (colorConvert ⟨0, 0, 0⟩ 1)) ≠ remapInc (colorConvert ⟨0, 0, 0⟩ 1) := by
  refine ⟨fun svg f size => rfl, ?_, ?_⟩ <;> with_unfolding_all decide

/-- C8: with caching enabled, for the same cache entry the mesh returned
by `show_sized` has identical vertex positions, identical vertex uv
coordinates, and an identical triangle index buffer whether or not a color
remap is configured at retrieval time: the post-retrieval remap rewrites
only vertex colors. -/
theorem C8_remap_geometry_invariant (ext : ExtTess) (fuel : ℕ) (svg : Svg)
    (entry : Mesh) (frame : Rect) (f : Color32 → Color32) :
    Option.map (fun m => m.vertices.map Vertex.pos)
        (showSizedCached ext fuel { svg with color_func := some f } frame (some entry)) =
      Option.map (fun m => m.vertices.map Vertex.pos)
        (showSizedCached ext fuel { svg with color_func := none } frame (some entry)) ∧
    Option.map (fun m => m.vertices.map Vertex.uv)
        (showSizedCached ext fuel { svg with color_func := some f } frame (some entry)) =
      Option.map (fun m => m.vertices.map Vertex.uv)
        (showSizedCached ext fuel { svg with color_func := none } frame (some entry)) ∧
    Option.map Mesh.indices
        (showSizedCached ext fuel { svg with color_func := some f } frame (some entry)) =
      Option.map Mesh.indices
        (showSizedCached ext fuel { svg with color_func := none } frame (some entry)) := by
  obtain ⟨tree, key, cf, tol, st, fm⟩ := svg
  have hfit : fitSizeAndInner
      { tree := tree, key := key, color_func := some f, tolerance := tol,
        scale_tolerance := st, fit_mode := fm } frame =
      fitSizeAndInner
      { tree := tree, key := key, color_func := none, tolerance := tol,
        scale_tolerance := st, fit_mode := fm } frame := rfl
  simp [showSizedCached, hfit, mapColors, meshTranslate, List.map_map, Function.comp]

/-- C6: for `Contain(margin)` with positive view-box, frame, and inset
frame dimensions, the computed render size is at most the inset frame on
both axes and equal to it on at least one axis. -/
theorem C6_contain_fits (svg : Svg) (frame : Rect) (m : Margin)
    (hm : svg.fit_mode = FitMode.contain m)
    (hsw : 0 < Rect.width (svgRect svg)) (hsh : 0 < Rect.height (svgRect svg))
    (hfw : 0 < Rect.width frame) (hfh : 0 < Rect.height frame)
    (hiw : 0 < Rect.width (insetRect frame m))
    (hih : 0 < Rect.height (insetRect frame m)) :
    (fitSizeAndInner svg frame).1.x ≤ Rect.width (insetRect frame m) ∧
    (fitSizeAndInner svg frame).1.y ≤ Rect.height (insetRect frame m) ∧
    ((fitSizeAndInner svg frame).1.x = Rect.width (insetRect frame m) ∨
      (fitSizeAndInner svg frame).1.y = Rect.height (insetRect frame m)) := by
  simp only [fitSizeAndInner, hm]
  split_ifs with hc
  · simp only [Rect.aspect, gt_iff_lt] at hc
    have hc2 := (div_lt_div_iff hsh hih).mp hc
    refine ⟨?_, le_rfl, Or.inr rfl⟩
    show Rect.width (svgRect svg) * Rect.height (insetRect frame m) /
        Rect.height (svgRect svg) ≤ Rect.width (insetRect frame m)
    rw [div_le_iff hsh]
    exact hc2.le
  · simp only [Rect.aspect, gt_iff_lt, not_lt] at hc
    have hc2 := (div_le_div_iff hih hsh).mp hc
    refine ⟨le_rfl, ?_, Or.inl rfl⟩
    show Rect.height (svgRect svg) * Rect.width (insetRect frame m) /
        Rect.width (svgRect svg) ≤ Rect.height (insetRect frame m)
    rw [div_le_iff hsw]
    nlinarith [hc2]

/-- C6 witness: the `Contain` bound evaluated on a 10 x 5 view box, an
8 x 8 frame, and unit margins (inset frame 6 x 6; render size (6, 3)). -/
theorem C6_contain_fits_witness :
    svgC6.fit_mode = FitMode.contain ⟨1, 1, 1, 1⟩ ∧
    (0 < Rect.width (svgRect svgC6) ∧ 0 < Rect.height (svgRect svgC6) ∧
      0 < Rect.width frame8 ∧ 0 < Rect.height frame8 ∧
      0 < Rect.width (insetRect frame8 ⟨1, 1, 1, 1⟩) ∧
      0 < Rect.height (insetRect frame8 ⟨1, 1, 1, 1⟩)) ∧
    ((fitSizeAndInner svgC6 frame8).1.x ≤ Rect.width (insetRect frame8 ⟨1, 1, 1, 1⟩) ∧
      (fitSizeAndInner svgC6 frame8).1.y ≤ Rect.height (insetRect frame8 ⟨1, 1, 1, 1⟩) ∧
      ((fitSizeAndInner svgC6 frame8).1.x = Rect.width (insetRect frame8 ⟨1, 1, 1, 1⟩) ∨
        (fitSizeAndInner svgC6 frame8).1.y = Rect.height (insetRect frame8 ⟨1, 1, 1, 1⟩))) :=
  ⟨rfl,
    by norm_num [svgRect, svgC6, frame8, insetRect, Rect.width, Rect.height, vadd, vsub],
    C6_contain_fits svgC6 frame8 ⟨1, 1, 1, 1⟩ rfl
      (by norm_num [svgRect, svgC6, frame8, insetRect, Rect.width, Rect.height, vadd, vsub]) (by norm_num [svgRect, svgC6, frame8, insetRect, Rect.width, Rect.height, vadd, vsub])
      (by norm_num [svgRect, svgC6, frame8, insetRect, Rect.width, Rect.height, vadd, vsub]) (by norm_num [svgRect, svgC6, frame8, insetRect, Rect.width, Rect.height, vadd, vsub])
      (by norm_num [svgRect, svgC6, frame8, insetRect, Rect.width, Rect.height, vadd, vsub]) (by norm_num [svgRect, svgC6, frame8, insetRect, Rect.width, Rect.height, vadd, vsub])⟩

/-- C7: for `Cover` with positive view-box and frame dimensions, the
computed render size is at least the frame on both axes and equal to it on
at least one axis. -/
theorem C7_cover_covers (svg : Svg) (frame : Rect)
    (hm : svg.fit_mode = FitMode.cover)
    (hsw : 0 < Rect.width (svgRect svg)) (hsh : 0 < Rect.height (svgRect svg))
    (hfw : 0 < Rect.width frame) (hfh : 0 < Rect.height frame) :
    Rect.width frame ≤ (fitSizeAndInner svg frame).1.x ∧
    Rect.height frame ≤ (fitSizeAndInner svg frame).1.y ∧
    ((fitSizeAndInner svg frame).1.x = Rect.width frame ∨
      (fitSizeAndInner svg frame).1.y = Rect.height frame) := by
  simp only [fitSizeAndInner, hm]
  split_ifs with hc
  · simp only [Rect.aspect, gt_iff_lt] at hc
    have hc2 := (div_lt_div_iff hsh hfh).mp hc
    refine ⟨le_rfl, ?_, Or.inl rfl⟩
    show Rect.height frame ≤
      Rect.height (svgRect svg) * Rect.width frame / Rect.width (svgRect svg)
    rw [le_div_iff hsw]
    nlinarith [hc2]
  · simp only [Rect.aspect, gt_iff_lt, not_lt] at hc
    have hc2 := (div_le_div_iff hfh hsh).mp hc
    refine ⟨?_, le_rfl, Or.inr rfl⟩
    show Rect.width frame ≤
      Rect.width (svgRect svg) * Rect.height frame / Rect.height (svgRect svg)
    rw [le_div_iff hsh]
    nlinarith [hc2]

/-- C7 witness: the `Cover` bound evaluated on a 10 x 5 view box and an
8 x 8 frame (render size (16, 8)). -/
theorem C7_cover_covers_witness :
    svgC7.fit_mode = FitMode.cover ∧
    (0 < Rect.width (svgRect svgC7) ∧ 0 < Rect.height (svgRect svgC7) ∧
      0 < Rect.width frame8 ∧ 0 < Rect.height frame8) ∧
    (Rect.width frame8 ≤ (fitSizeAndInner svgC7 frame8).1.x ∧
      Rect.height frame8 ≤ (fitSizeAndInner svgC7 frame8).1.y ∧
      ((fitSizeAndInner svgC7 frame8).1.x = Rect.width frame8 ∨
        (fitSizeAndInner svgC7 frame8).1.y = Rect.height frame8)) :=
  ⟨rfl,
    by norm_num [svgRect, svgC7, frame8, Rect.width, Rect.height],
    C7_cover_covers svgC7 frame8 rfl
      (by norm_num [svgRect, svgC7, frame8, Rect.width, Rect.height]) (by norm_num [svgRect, svgC7, frame8, Rect.width, Rect.height])
      (by norm_num [svgRect, svgC7, frame8, Rect.width, Rect.height]) (by norm_num [svgRect, svgC7, frame8, Rect.width, Rect.height])⟩

/-- Tessellating at `r1` produces the same vertex as tessellating at `r2`
shifted by `r1.min - r2.min`: the destination rectangle enters the vertex
computation only through the final `+ rect.min`. -/
theorem new_egui_vertex_shift (svg : Svg) (scale : V2) (r1 r2 : Rect) (pt pp : TF)
    (q : V2) (paint : Paint) (opacity : ℚ) :
    new_egui_vertex svg scale r1 pt pp q paint opacity =
      shiftV (vsub r1.min r2.min) (new_egui_vertex svg scale r2 pt pp q paint opacity) := by
  simp only [new_egui_vertex, shiftV, vadd, vsub, Vertex.mk.injEq, V2.mk.injEq]
  exact ⟨⟨by ring, by ring⟩, trivial, trivial⟩

/-- `appendTess` commutes with shifting the buffer, provided the new
vertices are shifted the same way; the index offset is unchanged because
shifting preserves the vertex count. -/
theorem appendTess_shift (d : V2) (buf : Mesh) (verts : List V2) (inds : List ℕ)
    (mk : V2 → Vertex) :
    appendTess (meshTranslate buf d) verts inds (fun q => shiftV d (mk q)) =
      meshTranslate (appendTess buf verts inds mk) d := by
  simp [appendTess, meshTranslate, List.map_append, List.map_map, Function.comp]

/-- `tessPath` at destination `r1` on a shifted buffer equals the shifted
result of `tessPath` at destination `r2`. -/
theorem tessPath_shift (ext : ExtTess) (svg : Svg) (scale : V2) (r1 r2 : Rect) (t : TF)
    (p : PathData) (buf : Mesh) :
    tessPath ext svg scale r1 t p (meshTranslate buf (vsub r1.min r2.min)) =
      Option.map (fun m => meshTranslate m (vsub r1.min r2.min))
        (tessPath ext svg scale r2 t p buf) := by
  have hmk : ∀ (pa : Paint) (op : ℚ),
      (fun q => new_egui_vertex svg scale r1 t p.transform q pa op) =
        fun q => shiftV (vsub r1.min r2.min)
          (new_egui_vertex svg scale r2 t p.transform q pa op) := by
    intro pa op
    funext q
    exact new_egui_vertex_shift svg scale r1 r2 t p.transform q pa op
  simp only [tessPath]
  cases hf : p.fill with
  | none =>
    cases hs : p.stroke with
    | none => rfl
    | some st =>
      cases he : ext.stroke (pciEvents (pathConvert p.data))
          (strokeConvert st (effectiveTol svg scale)) with
      | error u => simp [he]
      | ok vi =>
        obtain ⟨vs, inds⟩ := vi
        simp [he, hmk, appendTess_shift]
  | some fl =>
    cases hef : ext.fill (pciEvents (pathConvert p.data)) (effectiveTol svg scale) with
    | error u => simp [hef]
    | ok vi =>
      obtain ⟨vs, inds⟩ := vi
      simp only [hef, hmk, appendTess_shift]
      cases hs : p.stroke with
      | none => simp
      | some st =>
        cases he : ext.stroke (pciEvents (pathConvert p.data))
            (strokeConvert st (effectiveTol svg scale)) with
        | error u => simp [he]
        | ok vi2 =>
          obtain ⟨vs2, inds2⟩ := vi2
          simp [he, hmk, appendTess_shift]

/-- The whole recursive tessellation at destination `r1` on a shifted
buffer equals the shifted tessellation at destination `r2`, for every
fuel, node list, inherited transform, and buffer. -/
theorem tessNodes_shift (ext : ExtTess) (svg : Svg) (scale : V2) (r1 r2 : Rect) :
    ∀ (fuel : ℕ) (ns : List Node) (t : TF) (buf : Mesh),
      tessNodes ext svg scale r1 fuel ns t (meshTranslate buf (vsub r1.min r2.min)) =
        Option.map (fun m => meshTranslate m (vsub r1.min r2.min))
          (tessNodes ext svg scale r2 fuel ns t buf) := by
  intro fuel
  induction fuel with
  | zero => intro ns t buf; rfl
  | succ fu ih =>
    intro ns t buf
    cases ns with
    | nil => rfl
    | cons n ns =>
      cases n with
      | path p =>
        simp only [tessNodes]
        rw [tessPath_shift ext svg scale r1 r2 t p buf]
        cases tessPath ext svg scale r2 t p buf with
        | none => rfl
        | some b2 => exact ih ns t b2
      | group gt cs =>
        simp only [tessNodes]
        rw [ih cs (TF.append t gt) buf]
        cases tessNodes ext svg scale r2 fu cs (TF.append t gt) buf with
        | none => rfl
        | some b2 => exact ih ns t b2
      | image =>
        simp only [tessNodes]
        exact ih ns t buf
      | text =>
        simp only [tessNodes]
        exact ih ns t buf

/-- Subtracting the origin is the identity on `V2`. -/
theorem vsub_zero (v : V2) : vsub v ⟨0, 0⟩ = v := by
  cases v
  simp [vsub]

/-- C10: with no color remap configured, the cached render path —
`Tessellator::compute` tessellating at a rectangle with origin `(0,0)` and
the render size, followed by `mesh.translate(rect.min)` — produces exactly
the mesh (vertices and indices) of the uncached render path, which
tessellates directly at `rect` with the same per-axis scale. -/
theorem C10_cached_uncached_equiv (ext : ExtTess) (fuel : ℕ) (svg : Svg)
    (rect : Rect) (size : V2) (h : svg.color_func = none) :
    Option.map (fun m => meshTranslate m rect.min)
        (tessellatorCompute ext fuel svg size) =
      tessellate ext fuel svg rect (vdiv size (Rect.size (svgRect svg))) := by
  have key := tessNodes_shift ext svg (vdiv size (Rect.size (svgRect svg))) rect
    (rectFromMinSize ⟨0, 0⟩ size) fuel svg.tree.root TF.idT emptyMesh
  have hmin : (rectFromMinSize (⟨0, 0⟩ : V2) size).min = ⟨0, 0⟩ := rfl
  rw [hmin, vsub_zero] at key
  have hempty : meshTranslate emptyMesh rect.min = emptyMesh := rfl
  rw [hempty] at key
  simp only [tessellatorCompute, tessellate]
  exact key.symm

/-- C10 witness: the equivalence evaluated on a concrete one-path document
with no remap, destination rectangle (1,2)-(3,4), and render size (2,2). -/
theorem C10_cached_uncached_equiv_witness :
    Option.map (fun m => meshTranslate m rectC10.min)
        (tessellatorCompute extOk1 3 svgC10 ⟨2, 2⟩) =
      tessellate extOk1 3 svgC10 rectC10 (vdiv ⟨2, 2⟩ (Rect.size (svgRect svgC10))) :=
  C10_cached_uncached_equiv extOk1 3 svgC10 rectC10 ⟨2, 2⟩ rfl

end EguiSvgicon
